import Mathlib

/-!
# Verification of the video_downloader job pipeline

Shallow embedding of the server-side services (rate limiter, file cleanup,
downloader, processor, HTTP handlers) and the client-side render coordination
of the video_downloader repository, together with proofs of the claimed
properties.

Conventions:
* JS `Date.now()` timestamps and millisecond durations are embedded as `ℤ`.
* JS numbers holding progress percentages are embedded as `ℚ`.
* `Math.round` (round half toward positive infinity) is `jsRound`.
* Filesystem state (which files exist, which frame images are present) is
  passed explicitly as lists of path strings.
-/

/-- JavaScript `Math.round x`: the integer nearest to `x`, rounding halves up,
i.e. `⌊x + 1/2⌋`. -/
def jsRound (x : ℚ) : ℤ := (x + 1/2).floor

namespace RateLimiter

/-- State of the sliding-window rate limiter for one client key
(`rateLimiter.js`).  The JS class keys a `Map` by IP; each key's entry is an
independent list of request timestamps, so we embed a single key's state. -/
structure State where
  /-- Field `this.maxRequests` (constructor default 20; index.js passes 20). -/
  maxRequests : ℕ
  /-- Field `this.windowMs` (constructor default one hour; index.js passes one hour). -/
  windowMs : ℤ
  /-- Field `this.requests.get(ip)`: timestamps of admitted requests, oldest first. -/
  requests : List ℤ
deriving DecidableEq

/-- Embedding of `RateLimiter.isAllowed` (rateLimiter.js lines 16-42): prune timestamps
outside the window, deny if at least `maxRequests` remain, otherwise record
`now` and admit.  Returns the decision and the updated state. -/
def isAllowed (s : State) (now : ℤ) : Bool × State :=
  let validRequests := s.requests.filter (fun t => now - t < s.windowMs)
  if s.maxRequests ≤ validRequests.length then
    (false, { s with requests := validRequests })
  else
    (true, { s with requests := validRequests ++ [now] })

/-- Embedding of `RateLimiter.getResetTime` (rateLimiter.js lines 65-76): seconds until the
oldest recorded request leaves the window, clamped at 0. -/
def getResetTime (s : State) (now : ℤ) : ℤ :=
  match s.requests with
  | [] => 0
  | oldest :: _ => max 0 ⌈((oldest + s.windowMs - now : ℤ) : ℚ) / 1000⌉

end RateLimiter

namespace Cleanup

/-- A file in one of the tracked temp directories, with its modification time. -/
structure FileRec where
  name : String
  mtimeMs : ℤ
deriving DecidableEq

/-- A job-store record as seen by the periodic record cleanups
(`cleanupOldDownloads` / `cleanupOldRenders`): only the creation time matters. -/
structure JobRec where
  id : String
  createdAt : ℤ
deriving DecidableEq

/-- One sweep of `FileCleanupService.cleanup` (fileCleanup.js lines 54-93) over
the files of the tracked directories: a file is deleted exactly when
`now - mtimeMs > maxAgeMs`; the survivors are returned.  The service never
touches the in-memory job stores. -/
def sweep (maxAgeMs now : ℤ) (files : List FileRec) : List FileRec :=
  files.filter (fun f => now - f.mtimeMs ≤ maxAgeMs)

/-- Embedding of `cleanupOldDownloads` / `cleanupOldRenders` (downloader.js lines 292-309,
processor.js lines 340-361): job records with `now - createdAt > maxAgeMs` are
removed (their files deleted); the surviving records are returned. -/
def cleanupOldRecords (maxAgeMs now : ℤ) (jobs : List JobRec) : List JobRec :=
  jobs.filter (fun j => now - j.createdAt ≤ maxAgeMs)

/-- File TTL configured in index.js lines 34-39: 5 minutes. -/
def fileTTL : ℤ := 5 * 60 * 1000

/-- Record-cleanup TTL: `cleanupOldDownloads()` / `cleanupOldRenders()` are
invoked by `setInterval` with no argument, so the default of one hour applies
(downloader.js line 292, processor.js line 340). -/
def recordTTL : ℤ := 3600000

end Cleanup

namespace Processor

/-- Embedding of `maxDimension` (processor.js line 73). -/
def maxDimension : ℕ := 720

/-- Target-dimension computation of `processRender` (processor.js lines 71-78):
if either source dimension exceeds the cap, scale both by
`maxDimension / max width height` and round to even via
`Math.round(v * scale / 2) * 2`; otherwise keep the source dimensions. -/
def computeTargetDims (width height : ℕ) : ℤ × ℤ :=
  if maxDimension < width ∨ maxDimension < height then
    let scale : ℚ := (maxDimension : ℚ) / (max width height : ℚ)
    (2 * jsRound ((width : ℚ) * scale / 2), 2 * jsRound ((height : ℚ) * scale / 2))
  else
    ((width : ℤ), (height : ℤ))

end Processor

namespace Downloader

/-- Status values stored in `jobData.status` by downloader.js. -/
inductive DlStatus
  | downloading
  | completed
  | failed
deriving DecidableEq

/-- The mutable fields of a download job record that `processDownload` touches. -/
structure Job where
  status : DlStatus
  progress : ℚ
  error : Option String
deriving DecidableEq

/-- Job state created by `startDownload` (downloader.js lines 180-188). -/
def initJob : Job := ⟨.downloading, 0, none⟩

/-- Effect of one ytdl-core `data` event (downloader.js lines 54-59) on the job,
given the cumulative `downloadedBytes` so far:
`jobData.progress = Math.round((downloadedBytes / totalBytes) * 100)`,
guarded by `totalBytes > 0`. -/
def ytdlDataStep (totalBytes downloadedBytes : ℕ) (j : Job) : Job :=
  if 0 < totalBytes then
    { j with progress := (jsRound ((downloadedBytes : ℚ) / (totalBytes : ℚ) * 100) : ℚ) }
  else j

/-- Effect of one yt-dlp stdout progress line (downloader.js lines 83-89):
`jobData.progress = parseFloat(progressMatch[1])`, the tool's reported
percentage, stored unmodified. -/
def ytdlpDataStep (percent : ℚ) (j : Job) : Job :=
  { j with progress := percent }

/-- Terminal update of `processDownload` (downloader.js lines 109-124): on
success set `status = "completed"`, `progress = 100`; on failure set
`status = "failed"` and record the error message.  Neither branch checks the
job's current status first. -/
def finishDownload (success : Bool) (err : String) (j : Job) : Job :=
  if success then { j with status := .completed, progress := 100 }
  else { j with status := .failed, error := some err }

/-- Observable job states produced by the ytdl-core branch's `data` events:
one state per event, with `downloadedBytes` accumulating the chunk sizes on
top of `acc` (downloader.js lines 51-59). -/
def ytdlDataStates (totalBytes : ℕ) (j : Job) : ℕ → List ℕ → List Job
  | _, [] => []
  | acc, c :: cs =>
    let j' := ytdlDataStep totalBytes (acc + c) j
    j' :: ytdlDataStates totalBytes j' (acc + c) cs

/-- The full observable state trace of a direct-mode ytdl-core download:
the initial state from `startDownload`, the state after each `data` event,
then the terminal state. -/
def ytdlTrace (totalBytes : ℕ) (chunks : List ℕ) (success : Bool) (err : String) :
    List Job :=
  let states := ytdlDataStates totalBytes initJob 0 chunks
  let last := states.getLast? |>.getD initJob
  initJob :: states ++ [finishDownload success err last]

/-- Observable job states produced by the yt-dlp branch: one state per parsed
percentage line (downloader.js lines 83-89). -/
def ytdlpDataStates (j : Job) : List ℚ → List Job
  | [] => []
  | p :: ps =>
    let j' := ytdlpDataStep p j
    j' :: ytdlpDataStates j' ps

/-- Full observable state trace of a direct-mode yt-dlp download. -/
def ytdlpTrace (percents : List ℚ) (success : Bool) (err : String) : List Job :=
  let states := ytdlpDataStates initJob percents
  let last := states.getLast? |>.getD initJob
  initJob :: states ++ [finishDownload success err last]

/-- One execution attempt of `processDownload` abstracted to its effect on the
job record: a sequence of progress values written by the tool's events,
followed by the terminal update. -/
structure Attempt where
  events : List ℚ
  success : Bool
  err : String

/-- Apply the progress events of one attempt in order. -/
def applyEvents : List ℚ → Job → Job
  | [], j => j
  | p :: ps, j => applyEvents ps (ytdlpDataStep p j)

/-- Run one attempt of `processDownload` against the job record. -/
def runAttempt (a : Attempt) (j : Job) : Job :=
  finishDownload a.success a.err (applyEvents a.events j)

/-- Queued-mode execution (initDownloadQueue, downloader.js lines 140-154):
Bull runs `processDownload`, and because the processor re-throws on failure,
retries the job (up to the configured `attempts`) with the same data.  The
list of post-attempt job states is returned: after a failure the next attempt
(if any) runs against the already-failed record; after a success no further
attempt runs. -/
def runQueued : Job → List Attempt → List Job
  | _, [] => []
  | j, a :: as =>
    let j' := runAttempt a j
    if j'.status = .failed then j' :: runQueued j' as else [j']

/-- Direct-mode execution (downloader.js lines 199-204): a single detached
attempt, no retries. -/
def runDirect (j : Job) (a : Attempt) : List Job := runQueued j [a]

end Downloader

namespace Processor

/-- Status values stored in render `jobData.status` by processor.js. -/
inductive RStatus
  | processing
  | completed
  | failed
deriving DecidableEq

/-- The mutable fields of a render job record that `processRender` touches. -/
structure RJob where
  status : RStatus
  progress : ℚ
  error : Option String
deriving DecidableEq

/-- Render job state created by `startRender` (processor.js lines 281-288). -/
def initRJob : RJob := ⟨.processing, 0, none⟩

/-- Effect of one ffmpeg `progress` event (processor.js lines 118-127), with
`seconds` the elapsed media time parsed from the timemark:
`jobData.progress = Math.min(99, Math.round((seconds / duration) * 100))`,
guarded by `duration > 0`. -/
def renderProgressStep (duration seconds : ℚ) (j : RJob) : RJob :=
  if 0 < duration then
    { j with progress := min 99 (jsRound (seconds / duration * 100) : ℚ) }
  else j

/-- Terminal update of `processRender` (processor.js lines 135-150). -/
def finishRender (success : Bool) (err : String) (j : RJob) : RJob :=
  if success then { j with status := .completed, progress := 100 }
  else { j with status := .failed, error := some err }

/-- Observable render job states, one per ffmpeg progress event. -/
def renderDataStates (duration : ℚ) (j : RJob) : List ℚ → List RJob
  | [] => []
  | s :: ss =>
    let j' := renderProgressStep duration s j
    j' :: renderDataStates duration j' ss

/-- Full observable state trace of a direct-mode render: initial state, one
state per progress event, then the terminal state. -/
def renderTrace (duration : ℚ) (seconds : List ℚ) (success : Bool) (err : String) :
    List RJob :=
  let states := renderDataStates duration initRJob seconds
  let last := states.getLast? |>.getD initRJob
  initRJob :: states ++ [finishRender success err last]

/-- One execution attempt of `processRender` abstracted to its effect on the
render job record: the probed duration, the encoder's reported times, and the
terminal outcome. -/
structure AttemptR where
  duration : ℚ
  seconds : List ℚ
  success : Bool
  err : String

/-- Apply the ffmpeg progress events of one attempt in order. -/
def applyEventsR : ℚ → List ℚ → RJob → RJob
  | _, [], j => j
  | d, s :: ss, j => applyEventsR d ss (renderProgressStep d s j)

/-- Run one attempt of `processRender` against the job record.  Like the
downloader, `processRender` never checks the job's current status before
mutating it (processor.js lines 118-150). -/
def runAttemptR (a : AttemptR) (j : RJob) : RJob :=
  finishRender a.success a.err (applyEventsR a.duration a.seconds j)

/-- Queued-mode render execution (initRenderQueue, processor.js lines
157-196): Bull runs `processRender` and, because the processor re-throws on
failure, retries the job (configured `attempts: 2`) with the same data.  The
list of post-attempt job states is returned: after a failure the next attempt
(if any) runs against the already-failed record; after a success no further
attempt runs. -/
def runQueuedR : RJob → List AttemptR → List RJob
  | _, [] => []
  | j, a :: as =>
    let j' := runAttemptR a j
    if j'.status = .failed then j' :: runQueuedR j' as else [j']

/-- Direct-mode render execution (processor.js lines 299-304): a single
detached attempt, no retries. -/
def runDirectR (j : RJob) (a : AttemptR) : List RJob := runQueuedR j [a]

end Processor

namespace Server

/-- Embedding of `validDomains` (video.routes.js lines 64-73; the same list is
`VALID_DOMAINS` in script.js lines 77-86). -/
def validDomains : List String :=
  ["tiktok.com", "instagram.com", "youtube.com", "youtu.be",
   "twitter.com", "x.com", "facebook.com", "fb.watch"]

/-- JavaScript `s.includes(sub)`: substring containment. -/
def jsIncludes (s sub : String) : Bool := decide (sub.data <:+: s.data)

/-- Source-URL validation of the resolve handler (video.routes.js line 75):
`validDomains.some((domain) => url.includes(domain))`. -/
def isValidUrl (url : String) : Bool :=
  validDomains.any (fun domain => jsIncludes url domain)

/-- Embedding of `isValidSocialUrl` (script.js lines 88-91): the client-side copy of the
same check, with an extra falsy/empty guard. -/
def isValidSocialUrl (url : String) : Bool :=
  if url = "" then false else isValidUrl url

/-- A download job record as stored in `downloadJobs` (downloader.js). -/
structure StoredDownload where
  status : Downloader.DlStatus
  progress : ℚ
  outputPath : String
  error : Option String
  createdAt : ℤ
deriving DecidableEq

/-- A render job record as stored in `renderJobs` (processor.js). -/
structure StoredRender where
  status : Processor.RStatus
  progress : ℚ
  outputPath : String
  error : Option String
  createdAt : ℤ
deriving DecidableEq

/-- Server-side state relevant to the HTTP handlers: the per-client rate
limiter, the two in-memory job stores, the frame images present in
`backend/frames` (as base names without extension, which is what the
extension-trying search of `getFramePath` keys on), and the set of files
existing on disk. -/
structure ServerState where
  limiter : RateLimiter.State
  downloads : List (String × StoredDownload)
  renders : List (String × StoredRender)
  frames : List String
  files : List String
deriving DecidableEq

/-- HTTP responses produced by the embedded middleware and handlers; bodies are
abstracted to the identifying string. -/
inductive Response
  | ok (body : String)
  | badRequest (error : String)
  | notFound (error : String)
  | tooMany (retryAfterSeconds : ℤ)
deriving DecidableEq

/-- The HTTP status code of a response. -/
def Response.code : Response → ℕ
  | .ok _ => 200
  | .badRequest _ => 400
  | .notFound _ => 404
  | .tooMany _ => 429

/-- JS truthiness of an optional request-body string field: absent and empty
strings are falsy. -/
def provided : Option String → Bool
  | none => false
  | some s => s ≠ ""

/-- Embedding of `startDownload`'s synchronous bookkeeping (downloader.js lines 177-212):
create the job record in `downloadJobs` with status `"downloading"` and return
the fresh id; execution is detached. -/
def startDownload (st : ServerState) (freshId url : String) (now : ℤ) :
    String × ServerState :=
  let _ := url
  (freshId,
    { st with downloads :=
        (freshId, ⟨.downloading, 0, "downloads/" ++ freshId ++ ".mp4", none, now⟩)
          :: st.downloads })

/-- Embedding of `POST /resolve` (video.routes.js lines 53-100): missing/empty url → 400;
URL failing the domain allow-list → 400; otherwise create the download job. -/
def resolveHandler (st : ServerState) (url : Option String) (freshId : String)
    (now : ℤ) : Response × ServerState :=
  match url with
  | none => (.badRequest "Please paste a video URL to get started", st)
  | some u =>
    if u = "" then (.badRequest "Please paste a video URL to get started", st)
    else if isValidUrl u then
      let (videoId, st') := startDownload st freshId u now
      (.ok videoId, st')
    else
      (.badRequest "Unsupported URL. We support TikTok, Instagram, YouTube, Twitter/X, and Facebook videos.", st)

/-- Embedding of `POST /upload` with `handleUploadedFile` (video.routes.js lines 106-137,
downloader.js lines 241-286): no file → 400; otherwise the file is copied into
the artifact store and a job is created already `"completed"` (uploads never
enter a running state). -/
def uploadHandler (st : ServerState) (fileProvided : Bool) (freshId : String)
    (now : ℤ) : Response × ServerState :=
  if fileProvided then
    let outputPath := "uploads/" ++ freshId ++ ".mp4"
    (.ok freshId,
      { st with
          downloads := (freshId, ⟨.completed, 100, outputPath, none, now⟩) :: st.downloads,
          files := outputPath :: st.files })
  else (.badRequest "No file provided", st)

/-- Embedding of `getDownloadStatus` (downloader.js lines 219-221). -/
def getDownloadStatus (st : ServerState) (videoId : String) : Option StoredDownload :=
  st.downloads.lookup videoId

/-- Embedding of `getVideoPath` (downloader.js lines 228-234): the artifact path, only for a
known job that is `"completed"` and whose output file still exists. -/
def getVideoPath (st : ServerState) (videoId : String) : Option String :=
  match st.downloads.lookup videoId with
  | some job =>
    if job.status = .completed ∧ st.files.contains job.outputPath then
      some job.outputPath
    else none
  | none => none

/-- Embedding of `GET /status/:videoId` (video.routes.js lines 143-178). -/
def statusHandler (st : ServerState) (videoId : String) : Response × ServerState :=
  match getDownloadStatus st videoId with
  | none => (.notFound "Video not found", st)
  | some _ => (.ok videoId, st)

/-- Embedding of `GET /preview/:videoId` (video.routes.js lines 184-288), abstracting the
byte streaming: 404 when the artifact is unavailable, otherwise the stream. -/
def previewHandler (st : ServerState) (videoId : String) : Response × ServerState :=
  match getVideoPath st videoId with
  | none => (.notFound "Video not found or still downloading", st)
  | some videoPath => (.ok videoPath, st)

/-- Embedding of `getFramePath` (processor.js lines 241-260): the frame image is found when
a file for `frameId`, or for `"frame-" ++ frameId`, exists with one of the
tried extensions; `frames` holds the base names present. -/
def framePathFound (frames : List String) (frameId : String) : Bool :=
  frames.contains frameId || frames.contains ("frame-" ++ frameId)

/-- Embedding of `startRender`'s synchronous bookkeeping (processor.js lines 268-312):
unknown frame or missing source file → synchronous error, no job; otherwise
the render job record is created with status `"processing"` and execution is
detached. -/
def startRender (st : ServerState) (freshId videoPath frameId : String)
    (now : ℤ) : Except String (String × ServerState) :=
  if ¬ framePathFound st.frames frameId then
    .error ("Frame " ++ frameId ++ " not found")
  else if ¬ st.files.contains videoPath then
    .error "Source video not found"
  else
    .ok (freshId,
      { st with renders :=
          (freshId, ⟨.processing, 0, "rendered/" ++ freshId ++ ".mp4", none, now⟩)
            :: st.renders })

/-- Embedding of `POST /render` (video.routes.js lines 325-363): missing body fields → 400;
unknown or non-completed source video → 404; `startRender` error → 400. -/
def renderHandler (st : ServerState) (videoId frameId : Option String)
    (freshId : String) (now : ℤ) : Response × ServerState :=
  if provided videoId ∧ provided frameId then
    match videoId, frameId with
    | some v, some f =>
      match getVideoPath st v with
      | none => (.notFound "Source video not found", st)
      | some videoPath =>
        match startRender st freshId videoPath f now with
        | .error e => (.badRequest e, st)
        | .ok (jobId, st') => (.ok jobId, st')
    | _, _ => (.badRequest "videoId and frameId are required", st)
  else (.badRequest "videoId and frameId are required", st)

/-- Embedding of `GET /render/:jobId` (video.routes.js lines 369-387). -/
def renderStatusHandler (st : ServerState) (jobId : String) : Response × ServerState :=
  match st.renders.lookup jobId with
  | none => (.notFound "Render job not found", st)
  | some _ => (.ok jobId, st)

/-- Embedding of `getRenderedVideoPath` (processor.js lines 328-334). -/
def getRenderedVideoPath (st : ServerState) (jobId : String) : Option String :=
  match st.renders.lookup jobId with
  | some job =>
    if job.status = .completed ∧ st.files.contains job.outputPath then
      some job.outputPath
    else none
  | none => none

/-- Embedding of `GET /download/:jobId` (video.routes.js lines 393-417). -/
def downloadHandler (st : ServerState) (jobId : String) : Response × ServerState :=
  match getRenderedVideoPath st jobId with
  | none => (.notFound "Rendered video not found or still processing", st)
  | some videoPath => (.ok videoPath, st)

/-- The routes of `video.routes.js`, with any fresh job id the handler would
generate supplied explicitly. -/
inductive Route
  | resolve (url : Option String) (freshId : String)
  | upload (fileProvided : Bool) (freshId : String)
  | status (videoId : String)
  | preview (videoId : String)
  | render (videoId frameId : Option String) (freshId : String)
  | renderStatus (jobId : String)
  | download (jobId : String)

/-- Routing inside the mounted router. -/
def dispatch (st : ServerState) (now : ℤ) : Route → Response × ServerState
  | .resolve url freshId => resolveHandler st url freshId now
  | .upload fileProvided freshId => uploadHandler st fileProvided freshId now
  | .status videoId => statusHandler st videoId
  | .preview videoId => previewHandler st videoId
  | .render videoId frameId freshId => renderHandler st videoId frameId freshId now
  | .renderStatus jobId => renderStatusHandler st jobId
  | .download jobId => downloadHandler st jobId

/-- An incoming request.  `video.routes.js` is mounted both at `/api/video`
(index.js line 77) and at `/api` (index.js line 78); `viaVideoMount` records
which mount the request path used.  The rate-limiting middleware (index.js
lines 60-74) is installed with `app.use("/api/video", ...)`, so it gates
exactly the requests arriving through the `/api/video` mount. -/
structure Request where
  route : Route
  viaVideoMount : Bool
  now : ℤ

/-- Full request processing: the `/api/video`-mounted middleware consults the
rate limiter and answers 429 on denial; otherwise the router dispatches. -/
def serve (st : ServerState) (req : Request) : Response × ServerState :=
  if req.viaVideoMount then
    let (allowed, limiter') := RateLimiter.isAllowed st.limiter req.now
    let st' := { st with limiter := limiter' }
    if allowed then dispatch st' req.now req.route
    else (.tooMany (RateLimiter.getResetTime limiter' req.now), st')
  else dispatch st req.now req.route

end Server

namespace Client

/-- The client-side render-coordination state (script.js lines 63-72).
`videoId` is `null` until a video is loaded. -/
structure ClientState where
  videoId : Option String
  selectedFrame : String
  isProcessing : Bool
  lastRenderedJobId : Option String
  lastRenderedUrl : Option String
  isAutoRenderInProgress : Bool
  pendingRenderKey : Option String
deriving DecidableEq

/-- The render key built in `autoStartRenderForFrame` (script.js line 374):
the template literal prints a `null` videoId as the string `"null"`. -/
def renderKeyOf (videoId : Option String) (frameId : String) : String :=
  (videoId.getD "null") ++ "-" ++ frameId

/-- The rendered-artifact URL committed on completion (script.js line 480),
with the origin elided. -/
def downloadUrl (jobId : String) : String := "/api/video/download/" ++ jobId

/-- The synchronous guard section of `autoStartRenderForFrame` (script.js
lines 372-402), up to the point where the render request is sent: returns
whether a `POST /render` request is issued, and the state after the guards.
Job ids are never empty strings, so JS truthiness of `lastRenderedJobId` is
embedded as `isSome`. -/
def autoStartGuard (s : ClientState) (frameId : String) : Bool × ClientState :=
  let renderKey := renderKeyOf s.videoId frameId
  if s.pendingRenderKey = some renderKey then (false, s)
  else if s.lastRenderedJobId.isSome ∧ s.selectedFrame = frameId then (false, s)
  else if s.isAutoRenderInProgress then (false, s)
  else if s.isProcessing then (false, s)
  else (true, { s with isAutoRenderInProgress := true,
                       pendingRenderKey := some renderKey })

/-- The asynchronous completion and commit callbacks of the client, plus frame
selection, as atomic events on the client state:

* `selectFrame f` — the synchronous body of `selectFrame` (script.js lines
  281-319), including the guard section of the auto-render it spawns;
* `autoRenderComplete forFrame jobId` — the `pollRenderJob(...).then` handler
  inside `autoStartRenderForFrame` (script.js lines 468-491), for a render that
  was started for frame `forFrame`;
* `shareBgComplete jobId` — the `renderVideoInBackground().then` handler inside
  `shareVideo` (script.js lines 940-946), which commits unconditionally. -/
inductive Event
  | selectFrame (f : String)
  | autoRenderComplete (forFrame : String) (jobId : String)
  | shareBgComplete (jobId : String)

/-- One event step of the client state machine. -/
def step (s : ClientState) : Event → ClientState
  | .selectFrame f =>
    if s.selectedFrame = f then s
    else
      let s' := { s with selectedFrame := f,
                         lastRenderedJobId := none,
                         lastRenderedUrl := none,
                         isAutoRenderInProgress := false,
                         pendingRenderKey := none }
      if f ≠ "none" ∧ s'.videoId.isSome then (autoStartGuard s' f).2 else s'
  | .autoRenderComplete forFrame jobId =>
    if s.selectedFrame ≠ forFrame then
      { s with isAutoRenderInProgress := false, pendingRenderKey := none }
    else
      { s with lastRenderedJobId := some jobId,
               lastRenderedUrl := some (downloadUrl jobId),
               isAutoRenderInProgress := false,
               pendingRenderKey := none }
  | .shareBgComplete jobId =>
    { s with lastRenderedJobId := some jobId,
             lastRenderedUrl := some (downloadUrl jobId) }

/-- Run a sequence of client events. -/
def run (s : ClientState) (es : List Event) : ClientState := es.foldl step s

/-- The guard under which `shareVideo` fires its background render (script.js
line 938): a frame is selected, nothing is cached for it, and no auto-render
is in flight. -/
def shareStartsBgRender (s : ClientState) : Bool :=
  s.selectedFrame ≠ "none" ∧ s.lastRenderedJobId = none ∧
    s.isAutoRenderInProgress = false

end Client

/-! ## Helper lemmas -/

theorem jsRound_eq (x : ℚ) : jsRound x = ⌊x + 1/2⌋ := rfl

theorem jsRound_le {x : ℚ} {n : ℤ} (h : x ≤ (n : ℚ)) : jsRound x ≤ n := by
  rw [jsRound_eq]
  have h2 : x + 1/2 < ((n + 1 : ℤ) : ℚ) := by push_cast; linarith
  have h3 := Int.floor_lt.mpr h2
  omega

theorem jsRound_nonneg {x : ℚ} (h : 0 ≤ x) : 0 ≤ jsRound x := by
  rw [jsRound_eq]
  exact Int.le_floor.mpr (by push_cast; linarith)

theorem jsRound_mono {x y : ℚ} (h : x ≤ y) : jsRound x ≤ jsRound y := by
  rw [jsRound_eq, jsRound_eq]
  exact Int.floor_le_floor (by linarith)

theorem targetDim_even_le (v M : ℕ) (hvM : v ≤ M) (hM : 0 < M) :
    2 ∣ 2 * jsRound ((v : ℚ) * ((720 : ℚ) / (M : ℚ)) / 2) ∧
    0 ≤ 2 * jsRound ((v : ℚ) * ((720 : ℚ) / (M : ℚ)) / 2) ∧
    2 * jsRound ((v : ℚ) * ((720 : ℚ) / (M : ℚ)) / 2) ≤ 720 := by
  have hMq : (0 : ℚ) < (M : ℚ) := by exact_mod_cast hM
  have hvq : (v : ℚ) ≤ (M : ℚ) := by exact_mod_cast hvM
  have hx0 : (0 : ℚ) ≤ (v : ℚ) * ((720 : ℚ) / (M : ℚ)) / 2 := by positivity
  have hx : (v : ℚ) * ((720 : ℚ) / (M : ℚ)) / 2 ≤ ((360 : ℤ) : ℚ) := by
    rw [div_le_iff (by norm_num : (0 : ℚ) < 2), mul_div_assoc', div_le_iff hMq]
    push_cast
    nlinarith
  refine ⟨⟨_, rfl⟩, ?_, ?_⟩
  · have h1 := jsRound_nonneg hx0
    omega
  · have h2 := jsRound_le hx
    omega

/-! ## Claim theorems -/

/-- C6: sliding-window boundary of `RateLimiter.isAllowed`: when `N` admitted
requests lie within the last `W` milliseconds of `now`, the next gated request
at `now` is denied; at any `later` instant at least `W` past each admitted
timestamp, a request is admitted again. -/
theorem rateLimiter_boundary (N : ℕ) (W : ℤ) (ts : List ℤ) (now later : ℤ)
    (hN : 0 < N) (hlen : ts.length = N)
    (hin : ∀ t ∈ ts, now - t < W)
    (hout : ∀ t ∈ ts, W ≤ later - t) :
    (RateLimiter.isAllowed ⟨N, W, ts⟩ now).1 = false ∧
    (RateLimiter.isAllowed ⟨N, W, ts⟩ later).1 = true := by
  constructor
  · have hfull : ts.filter (fun t => decide (now - t < W)) = ts :=
      List.filter_eq_self.mpr fun t ht => decide_eq_true (hin t ht)
    simp [RateLimiter.isAllowed, hfull, hlen]
  · have hempty : ts.filter (fun t => decide (later - t < W)) = [] :=
      List.filter_eq_nil.mpr fun t ht => by
        simpa using not_lt.mpr (hout t ht)
    rw [RateLimiter.isAllowed]
    simp only [hempty, List.length_nil]
    rw [if_neg (by omega)]

/-- Witness for C6 at the shipped configuration (20 requests per hour). -/
theorem rateLimiter_boundary_witness :
    (RateLimiter.isAllowed ⟨20, 3600000, List.replicate 20 0⟩ 0).1 = false ∧
    (RateLimiter.isAllowed ⟨20, 3600000, List.replicate 20 0⟩ 3600000).1 = true :=
  rateLimiter_boundary 20 3600000 (List.replicate 20 0) 0 3600000
    (by decide) (by simp)
    (fun t ht => by simp at ht; omega)
    (fun t ht => by simp at ht; omega)

/-- C7: when either source dimension exceeds the 720 cap, the computed target
dimensions are the uniform scaling by `720 / max width height` rounded to even,
both even and at most 720; sources within the cap keep their dimensions. -/
theorem computeTargetDims_spec (w h : ℕ) :
    (Processor.maxDimension < w ∨ Processor.maxDimension < h →
      (Processor.computeTargetDims w h).1 =
          2 * jsRound ((w : ℚ) * ((720 : ℚ) / ((max w h : ℕ) : ℚ)) / 2) ∧
      (Processor.computeTargetDims w h).2 =
          2 * jsRound ((h : ℚ) * ((720 : ℚ) / ((max w h : ℕ) : ℚ)) / 2) ∧
      2 ∣ (Processor.computeTargetDims w h).1 ∧
      2 ∣ (Processor.computeTargetDims w h).2 ∧
      0 ≤ (Processor.computeTargetDims w h).1 ∧
      (Processor.computeTargetDims w h).1 ≤ 720 ∧
      0 ≤ (Processor.computeTargetDims w h).2 ∧
      (Processor.computeTargetDims w h).2 ≤ 720) ∧
    (w ≤ Processor.maxDimension → h ≤ Processor.maxDimension →
      Processor.computeTargetDims w h = ((w : ℤ), (h : ℤ))) := by
  constructor
  · intro hbig
    have hw : w ≤ max w h := le_max_left _ _
    have hh : h ≤ max w h := le_max_right _ _
    have hM : 0 < max w h := by
      rcases hbig with h1 | h1 <;> simp [Processor.maxDimension] at h1 <;> omega
    obtain ⟨e1, n1, b1⟩ := targetDim_even_le w (max w h) hw hM
    obtain ⟨e2, n2, b2⟩ := targetDim_even_le h (max w h) hh hM
    unfold Processor.computeTargetDims
    rw [if_pos hbig]
    simp only [Nat.cast_max] at e1 e2 n1 b1 n2 b2
    simp only [Processor.maxDimension, Nat.cast_ofNat, Nat.cast_max]
    exact ⟨trivial, trivial, e1, e2, n1, b1, n2, b2⟩
  · intro hw hh
    unfold Processor.computeTargetDims
    rw [if_neg (by omega)]

/-- Witness for C7: a 1920×1080 source is downscaled (to 720×406, both even,
within the cap); an 800×600 source... (800 exceeds the cap, so use 640×480 and
320×240 instead: the first exceeds, the second is kept). -/
theorem computeTargetDims_spec_witness :
    (2 ∣ (Processor.computeTargetDims 1920 1080).1 ∧
      (Processor.computeTargetDims 1920 1080).1 ≤ 720) ∧
    Processor.computeTargetDims 640 480 = ((640 : ℤ), (480 : ℤ)) :=
  ⟨⟨((computeTargetDims_spec 1920 1080).1 (Or.inl (by decide))).2.2.1,
    ((computeTargetDims_spec 1920 1080).1 (Or.inl (by decide))).2.2.2.2.2.1⟩,
    (computeTargetDims_spec 640 480).2 (by decide) (by decide)⟩

/-- C8 counterexample: with the shipped TTLs, a 6-minute-old artifact is
deleted by the file sweeper while its equally old job-store record survives
the record cleanup — the record TTL is not the file TTL. -/
theorem cleanup_ttl_counterexample :
    Cleanup.sweep Cleanup.fileTTL 360000 [⟨"artifact.mp4", 0⟩] = [] ∧
    Cleanup.cleanupOldRecords Cleanup.recordTTL 360000 [⟨"job", 0⟩] =
      [⟨"job", 0⟩] := by
  constructor <;> rfl

/-- C8 amended: the sweeper deletes exactly the files whose modification time
is older than its TTL (younger files always survive); job-store records are
not touched by the sweeper but by a separate periodic cleanup that keeps
exactly the records younger than its own TTL — and the two shipped TTLs
differ (5 minutes vs one hour). -/
theorem cleanup_amended (maxAgeMs recTTL now : ℤ) (files : List Cleanup.FileRec)
    (jobs : List Cleanup.JobRec) :
    (∀ f, f ∈ Cleanup.sweep maxAgeMs now files ↔
        f ∈ files ∧ now - f.mtimeMs ≤ maxAgeMs) ∧
    (∀ j, j ∈ Cleanup.cleanupOldRecords recTTL now jobs ↔
        j ∈ jobs ∧ now - j.createdAt ≤ recTTL) ∧
    Cleanup.fileTTL ≠ Cleanup.recordTTL := by
  refine ⟨?_, ?_, by decide⟩ <;> intro x <;>
    simp [Cleanup.sweep, Cleanup.cleanupOldRecords, List.mem_filter]

/-- Acceptance characterization of the resolve endpoint. -/
theorem Server.resolve_code (st : Server.ServerState) (u freshId : String)
    (now : ℤ) :
    (Server.resolveHandler st (some u) freshId now).1.code = 200 ↔
      (u ≠ "" ∧ Server.isValidUrl u = true) := by
  unfold Server.resolveHandler
  by_cases hu : u = ""
  · simp [hu, Server.Response.code]
  · by_cases hv : Server.isValidUrl u <;>
      simp [hu, hv, Server.startDownload, Server.Response.code]

/-- C10: the acquire endpoint's source-URL validation is substring
containment — a URL is accepted exactly when one of the eight allowed domain
strings occurs anywhere inside it, so a URL merely embedding such a string in
its path or query passes. -/
theorem url_validation_substring (u : String) (st : Server.ServerState)
    (freshId : String) (now : ℤ) :
    (Server.isValidUrl u = true ↔
      ∃ d ∈ Server.validDomains, d.data <:+: u.data) ∧
    ((Server.resolveHandler st (some u) freshId now).1.code = 200 ↔
      ∃ d ∈ Server.validDomains, d.data <:+: u.data) ∧
    Server.isValidUrl "https://evil.example/watch?src=youtube.com" = true := by
  have hval : Server.isValidUrl u = true ↔
      ∃ d ∈ Server.validDomains, d.data <:+: u.data := by
    simp [Server.isValidUrl, Server.jsIncludes, List.any_eq_true]
  have hne : ∀ d ∈ Server.validDomains, d.data ≠ [] := by decide
  refine ⟨hval, ?_, by decide⟩
  rw [Server.resolve_code]
  constructor
  · rintro ⟨-, hv⟩
    exact hval.mp hv
  · intro hex
    refine ⟨?_, hval.mpr hex⟩
    rintro rfl
    obtain ⟨d, hd, hinf⟩ := hex
    exact hne d hd (List.eq_nil_of_infix_nil hinf)

/-- No handler of the mounted router ever produces a 429. -/
theorem Server.dispatch_code_ne_tooMany (st : Server.ServerState) (now : ℤ)
    (r : Server.Route) :
    (Server.dispatch st now r).1.code ≠ 429 := by
  cases r <;>
    simp only [Server.dispatch, Server.resolveHandler, Server.uploadHandler,
      Server.statusHandler, Server.previewHandler, Server.renderHandler,
      Server.renderStatusHandler, Server.downloadHandler, Server.startDownload,
      Server.startRender] <;>
    (repeat' split) <;> simp [Server.Response.code]

/-- C2 counterexample: a status poll on the `/api/video` mount is answered
429 once the client's window quota is exhausted — polling is not exempt from
the rate limiter. -/
theorem pollThrottled_counterexample :
    (Server.serve
      { limiter := ⟨20, 3600000, List.replicate 20 0⟩,
        downloads := [], renders := [], frames := [], files := [] }
      { route := Server.Route.status "abc", viaVideoMount := true,
        now := 0 }).1.code = 429 := by
  rfl

/-- C2 amended: the rate-limiting middleware gates every request under the
`/api/video` mount uniformly — job-creating, polling and artifact-retrieval
routes alike answer 429 exactly when the limiter denies the client; requests
through the duplicate `/api` mount (and only those) are never rate-limited. -/
theorem rateLimit_uniform (st : Server.ServerState) (req : Server.Request) :
    (Server.serve st req).1.code = 429 ↔
      req.viaVideoMount = true ∧
        (RateLimiter.isAllowed st.limiter req.now).1 = false := by
  unfold Server.serve
  by_cases hm : req.viaVideoMount = true
  · rcases hAll : RateLimiter.isAllowed st.limiter req.now with ⟨allowed, lim'⟩
    cases allowed
    · simp [hm, hAll, Server.Response.code]
    · simp [hm, hAll, Server.dispatch_code_ne_tooMany]
  · simp [hm, Server.dispatch_code_ne_tooMany]

/-- C9: coordinator-level dedup of auto-renders: while a render for the same
(videoId, frameId) key is pending, or an auto-render is already in flight,
a second auto-render request for that key sends no render request to the
server and leaves the client state unchanged. -/
theorem autoStart_dedup (s : Client.ClientState) (frameId : String)
    (h : s.pendingRenderKey = some (Client.renderKeyOf s.videoId frameId) ∨
         s.isAutoRenderInProgress = true) :
    (Client.autoStartGuard s frameId).1 = false ∧
    (Client.autoStartGuard s frameId).2 = s := by
  unfold Client.autoStartGuard
  rcases h with h | h
  · simp [h]
  · by_cases h1 : s.pendingRenderKey = some (Client.renderKeyOf s.videoId frameId)
    · simp [h1]
    · by_cases h2 : s.lastRenderedJobId.isSome ∧ s.selectedFrame = frameId
      · simp [h1, h2]
      · simp [h1, h2, h]

/-- Witness for C9: a repeated auto-render for the pending key `v-gold` is
skipped. -/
theorem autoStart_dedup_witness :
    (Client.autoStartGuard
      { videoId := some "v", selectedFrame := "gold", isProcessing := false,
        lastRenderedJobId := none, lastRenderedUrl := none,
        isAutoRenderInProgress := true, pendingRenderKey := some "v-gold" }
      "gold").1 = false ∧
    (Client.autoStartGuard
      { videoId := some "v", selectedFrame := "gold", isProcessing := false,
        lastRenderedJobId := none, lastRenderedUrl := none,
        isAutoRenderInProgress := true, pendingRenderKey := some "v-gold" }
      "gold").2 =
      { videoId := some "v", selectedFrame := "gold", isProcessing := false,
        lastRenderedJobId := none, lastRenderedUrl := none,
        isAutoRenderInProgress := true, pendingRenderKey := some "v-gold" } :=
  autoStart_dedup _ "gold" (Or.inl (by decide))

/-- C1 (bug demonstration): starting from a state where `shareVideo` fires its
background render for frame `gold`, switching the selection to `blue` and
completing `blue`'s auto-render, the late completion of the `gold` background
render is still committed to the cache by `shareVideo`'s unconditional
`.then` handler, leaving `lastRenderedJobId` holding the stale `gold` result
while `blue` is selected. -/
theorem shareVideo_stale_commit :
    (Client.shareStartsBgRender
      { videoId := some "v", selectedFrame := "gold", isProcessing := false,
        lastRenderedJobId := none, lastRenderedUrl := none,
        isAutoRenderInProgress := false, pendingRenderKey := none } = true) ∧
    Client.run
      { videoId := some "v", selectedFrame := "gold", isProcessing := false,
        lastRenderedJobId := none, lastRenderedUrl := none,
        isAutoRenderInProgress := false, pendingRenderKey := none }
      [Client.Event.selectFrame "blue",
       Client.Event.autoRenderComplete "blue" "jobBlue",
       Client.Event.shareBgComplete "jobGold"] =
      { videoId := some "v", selectedFrame := "blue", isProcessing := false,
        lastRenderedJobId := some "jobGold",
        lastRenderedUrl := some (Client.downloadUrl "jobGold"),
        isAutoRenderInProgress := false, pendingRenderKey := none } := by
  constructor <;> rfl

/-- C5: every validation failure — missing/empty or unsupported source URL for
acquire, missing body fields, unknown or non-completed source video, or
unknown frame for render — is answered synchronously with a 400/404 and
leaves the server state (in particular both job stores) unchanged. -/
theorem validation_no_job (st : Server.ServerState) (freshId : String) (now : ℤ) :
    ((Server.resolveHandler st none freshId now).1.code = 400 ∧
      (Server.resolveHandler st none freshId now).2 = st) ∧
    ((Server.resolveHandler st (some "") freshId now).1.code = 400 ∧
      (Server.resolveHandler st (some "") freshId now).2 = st) ∧
    (∀ u, u ≠ "" → Server.isValidUrl u = false →
      (Server.resolveHandler st (some u) freshId now).1.code = 400 ∧
      (Server.resolveHandler st (some u) freshId now).2 = st) ∧
    (∀ videoId frameId,
      Server.provided videoId = false ∨ Server.provided frameId = false →
      (Server.renderHandler st videoId frameId freshId now).1.code = 400 ∧
      (Server.renderHandler st videoId frameId freshId now).2 = st) ∧
    (∀ v f, v ≠ "" → f ≠ "" → Server.getVideoPath st v = none →
      (Server.renderHandler st (some v) (some f) freshId now).1.code = 404 ∧
      (Server.renderHandler st (some v) (some f) freshId now).2 = st) ∧
    (∀ v f vp, v ≠ "" → f ≠ "" → Server.getVideoPath st v = some vp →
      Server.framePathFound st.frames f = false →
      (Server.renderHandler st (some v) (some f) freshId now).1.code = 400 ∧
      (Server.renderHandler st (some v) (some f) freshId now).2 = st) := by
  refine ⟨?_, ?_, ?_, ?_, ?_, ?_⟩
  · simp [Server.resolveHandler, Server.Response.code]
  · simp [Server.resolveHandler, Server.Response.code]
  · intro u hu hv
    simp [Server.resolveHandler, hu, hv, Server.Response.code]
  · intro videoId frameId hmiss
    have hcond : ¬ (Server.provided videoId = true ∧ Server.provided frameId = true) := by
      rcases hmiss with h | h <;> simp [h]
    unfold Server.renderHandler
    rw [if_neg hcond]
    simp [Server.Response.code]
  · intro v f hv hf hpath
    unfold Server.renderHandler
    rw [if_pos (by simp [Server.provided, hv, hf])]
    simp [hpath, Server.Response.code]
  · intro v f vp hv hf hpath hframe
    unfold Server.renderHandler
    rw [if_pos (by simp [Server.provided, hv, hf])]
    simp [hpath, Server.startRender, hframe, Server.Response.code]

/-- Witness for C5: the spec's unsupported-source scenario,
`acquire("https://example.com/video")`, is answered 400 and creates no job. -/
theorem validation_no_job_witness :
    (Server.resolveHandler
      { limiter := ⟨20, 3600000, []⟩, downloads := [], renders := [],
        frames := [], files := [] }
      (some "https://example.com/video") "job1" 0).1.code = 400 ∧
    (Server.resolveHandler
      { limiter := ⟨20, 3600000, []⟩, downloads := [], renders := [],
        frames := [], files := [] }
      (some "https://example.com/video") "job1" 0).2 =
      { limiter := ⟨20, 3600000, []⟩, downloads := [], renders := [],
        frames := [], files := [] } :=
  (validation_no_job
      { limiter := ⟨20, 3600000, []⟩, downloads := [], renders := [],
        frames := [], files := [] } "job1" 0).2.2.1
    "https://example.com/video" (by decide) (by decide)

/-- C3 counterexample: in queued mode, `processDownload` and `processRender`
re-run on a Bull retry after a failure; for either job type the first attempt
leaves the job terminally "failed", and the retry's success overwrites it to
"completed" — the terminal state is left, for acquisition and transform jobs
alike. -/
theorem terminal_resurrection_counterexample :
    (Downloader.runQueued Downloader.initJob
      [⟨[], false, "yt-dlp exited with code 1"⟩, ⟨[], true, ""⟩] =
      [⟨.failed, 0, some "yt-dlp exited with code 1"⟩,
       ⟨.completed, 100, some "yt-dlp exited with code 1"⟩]) ∧
    (Processor.runQueuedR Processor.initRJob
      [⟨2, [], false, "ffmpeg exited with code 1"⟩, ⟨2, [], true, ""⟩] =
      [⟨.failed, 0, some "ffmpeg exited with code 1"⟩,
       ⟨.completed, 100, some "ffmpeg exited with code 1"⟩]) := by
  constructor <;> rfl

/-- Every non-final observable state of a queued execution is "failed": a
further attempt runs only after a failure. -/
theorem runQueued_dropLast_failed :
    ∀ (as : List Downloader.Attempt) (j : Downloader.Job),
      ∀ s ∈ (Downloader.runQueued j as).dropLast,
        s.status = Downloader.DlStatus.failed := by
  intro as
  induction as with
  | nil =>
    intro j s hs
    simp [Downloader.runQueued] at hs
  | cons a as ih =>
    intro j s hs
    rw [Downloader.runQueued] at hs
    by_cases hfail :
        (Downloader.runAttempt a j).status = Downloader.DlStatus.failed
    · rw [if_pos hfail] at hs
      rcases hrest : Downloader.runQueued (Downloader.runAttempt a j) as with
        - | ⟨b, bs⟩
      · rw [hrest] at hs
        simp at hs
      · rw [hrest, List.dropLast_cons₂] at hs
        rcases List.mem_cons.mp hs with rfl | hs'
        · exact hfail
        · exact ih (Downloader.runAttempt a j) s (by rw [hrest]; exact hs')
    · rw [if_neg hfail] at hs
      simp at hs

/-- Every non-final observable state of a queued render execution is
"failed": a further attempt runs only after a failure (render counterpart of
`runQueued_dropLast_failed`). -/
theorem runQueuedR_dropLast_failed :
    ∀ (as : List Processor.AttemptR) (j : Processor.RJob),
      ∀ s ∈ (Processor.runQueuedR j as).dropLast,
        s.status = Processor.RStatus.failed := by
  intro as
  induction as with
  | nil =>
    intro j s hs
    simp [Processor.runQueuedR] at hs
  | cons a as ih =>
    intro j s hs
    rw [Processor.runQueuedR] at hs
    by_cases hfail :
        (Processor.runAttemptR a j).status = Processor.RStatus.failed
    · rw [if_pos hfail] at hs
      rcases hrest : Processor.runQueuedR (Processor.runAttemptR a j) as with
        - | ⟨b, bs⟩
      · rw [hrest] at hs
        simp at hs
      · rw [hrest, List.dropLast_cons₂] at hs
        rcases List.mem_cons.mp hs with rfl | hs'
        · exact hfail
        · exact ih (Processor.runAttemptR a j) s (by rw [hrest]; exact hs')
    · rw [if_neg hfail] at hs
      simp at hs

/-- C3 amended: "completed" is never left — for acquisition and transform
jobs alike, in any execution only the final observable state can be
"completed", since retries re-run the processor only after a failure; and
direct mode performs exactly one attempt for either job type.  (In queued
mode a *failed* state can be re-entered and overwritten by a retry, which is
what the counterexample removes from the original claim.) -/
theorem terminal_amended (j : Downloader.Job) (as : List Downloader.Attempt)
    (a : Downloader.Attempt) (rj : Processor.RJob)
    (ras : List Processor.AttemptR) (ra : Processor.AttemptR) :
    (∀ s ∈ (Downloader.runQueued j as).dropLast,
        s.status ≠ Downloader.DlStatus.completed) ∧
    (Downloader.runDirect j a).length = 1 ∧
    (∀ s ∈ (Processor.runQueuedR rj ras).dropLast,
        s.status ≠ Processor.RStatus.completed) ∧
    (Processor.runDirectR rj ra).length = 1 := by
  refine ⟨?_, ?_, ?_, ?_⟩
  · intro s hs
    rw [runQueued_dropLast_failed as j s hs]
    exact fun hcon => Downloader.DlStatus.noConfusion hcon
  · unfold Downloader.runDirect Downloader.runQueued
    by_cases hfail :
        (Downloader.runAttempt a j).status = Downloader.DlStatus.failed
    · rw [if_pos hfail]
      rfl
    · rw [if_neg hfail]
      rfl
  · intro s hs
    rw [runQueuedR_dropLast_failed ras rj s hs]
    exact fun hcon => Processor.RStatus.noConfusion hcon
  · unfold Processor.runDirectR Processor.runQueuedR
    by_cases hfail :
        (Processor.runAttemptR ra rj).status = Processor.RStatus.failed
    · rw [if_pos hfail]
      rfl
    · rw [if_neg hfail]
      rfl

/-- Witness for C3 at concrete queued executions of both job types: the
failed state after the first of two attempts is not "completed". -/
theorem terminal_amended_witness :
    ((⟨Downloader.DlStatus.failed, 0, some "boom"⟩ : Downloader.Job).status ≠
      Downloader.DlStatus.completed) ∧
    ((⟨Processor.RStatus.failed, 0, some "enc"⟩ : Processor.RJob).status ≠
      Processor.RStatus.completed) :=
  ⟨(terminal_amended Downloader.initJob
        [⟨[], false, "boom"⟩, ⟨[], true, ""⟩] ⟨[], true, ""⟩
        Processor.initRJob [⟨2, [], false, "enc"⟩, ⟨2, [], true, ""⟩]
        ⟨2, [], true, ""⟩).1
      ⟨Downloader.DlStatus.failed, 0, some "boom"⟩
      (List.mem_singleton_self _),
    (terminal_amended Downloader.initJob
        [⟨[], false, "boom"⟩, ⟨[], true, ""⟩] ⟨[], true, ""⟩
        Processor.initRJob [⟨2, [], false, "enc"⟩, ⟨2, [], true, ""⟩]
        ⟨2, [], true, ""⟩).2.2.1
      ⟨Processor.RStatus.failed, 0, some "enc"⟩
      (List.mem_singleton_self _)⟩

/-- C4 counterexample: on the ytdl-core path the job's progress reaches 100
while the status is still "downloading" (the downloader has no 99-clamp), so
progress 100 does not imply completion; and on the yt-dlp path the stored
progress mirrors the tool's percent stream verbatim, which may decrease
(yt-dlp restarts percentages per downloaded stream), so the observed sequence
0, 99, 0, 100 is not non-decreasing. -/
theorem progress_counterexample :
    (Downloader.ytdlTrace 10 [10] true "").map
        (fun j => (j.status, j.progress)) =
      [(Downloader.DlStatus.downloading, 0),
       (Downloader.DlStatus.downloading, 100),
       (Downloader.DlStatus.completed, 100)] ∧
    (Downloader.ytdlpTrace [99, 0] true "").map Downloader.Job.progress =
      [0, 99, 0, 100] := by
  constructor
  · simp only [Downloader.ytdlTrace, Downloader.ytdlDataStates,
      Downloader.ytdlDataStep, Downloader.initJob, Downloader.finishDownload,
      List.getLast?]
    norm_num [jsRound_eq]
  · rfl

/-- Each ytdl-core data event preserves the job's status. -/
theorem ytdlDataStates_status (total : ℕ) :
    ∀ (cs : List ℕ) (acc : ℕ) (j : Downloader.Job),
      ∀ s ∈ Downloader.ytdlDataStates total j acc cs, s.status = j.status := by
  intro cs
  induction cs with
  | nil =>
    intro acc j s hs
    simp [Downloader.ytdlDataStates] at hs
  | cons c cs ih =>
    intro acc j s hs
    simp only [Downloader.ytdlDataStates, List.mem_cons] at hs
    rcases hs with rfl | hs'
    · unfold Downloader.ytdlDataStep
      split <;> rfl
    · have h1 := ih (acc + c) (Downloader.ytdlDataStep total (acc + c) j) s hs'
      rw [h1]
      unfold Downloader.ytdlDataStep
      split <;> rfl

/-- Progress bounds for the ytdl-core data states: while the cumulative bytes
stay within `totalBytes`, every written progress value lies in [0, 100]. -/
theorem ytdlDataStates_bounds (total : ℕ) (htot : 0 < total) :
    ∀ (cs : List ℕ) (acc : ℕ) (j : Downloader.Job),
      acc + cs.sum ≤ total →
      ∀ s ∈ Downloader.ytdlDataStates total j acc cs,
        0 ≤ s.progress ∧ s.progress ≤ 100 := by
  intro cs
  induction cs with
  | nil =>
    intro acc j _ s hs
    simp [Downloader.ytdlDataStates] at hs
  | cons c cs ih =>
    intro acc j hsum s hs
    simp only [Downloader.ytdlDataStates, List.mem_cons] at hs
    rcases hs with rfl | hs'
    · simp only [Downloader.ytdlDataStep, htot, if_true]
      have htotq : (0 : ℚ) < (total : ℚ) := by exact_mod_cast htot
      have hac : ((acc + c : ℕ) : ℚ) ≤ ((total : ℕ) : ℚ) := by
        have hn : acc + c ≤ total := by
          simp only [List.sum_cons] at hsum
          omega
        exact_mod_cast hn
      constructor
      · have h0 : (0 : ℚ) ≤ ((acc + c : ℕ) : ℚ) / (total : ℚ) * 100 := by
          positivity
        exact_mod_cast jsRound_nonneg h0
      · have hle : ((acc + c : ℕ) : ℚ) / (total : ℚ) * 100 ≤ ((100 : ℤ) : ℚ) := by
          rw [div_mul_eq_mul_div, div_le_iff htotq]
          push_cast at hac ⊢
          nlinarith
        exact_mod_cast jsRound_le hle
    · apply ih (acc + c) (Downloader.ytdlDataStep total (acc + c) j) _ s hs'
      simp only [List.sum_cons] at hsum
      omega

/-- Monotonicity of the ytdl-core progress trace: the cumulative byte count
only grows, so the written progress values form a non-decreasing chain. -/
theorem ytdlDataStates_chain (total : ℕ) (htot : 0 < total) :
    ∀ (cs : List ℕ) (acc : ℕ) (j : Downloader.Job),
      j.progress ≤ (jsRound ((acc : ℚ) / (total : ℚ) * 100) : ℚ) →
      List.Chain' (· ≤ ·)
        ((j :: Downloader.ytdlDataStates total j acc cs).map
          Downloader.Job.progress) := by
  intro cs
  induction cs with
  | nil =>
    intro acc j _
    simp [Downloader.ytdlDataStates]
  | cons c cs ih =>
    intro acc j hj
    have htotq : (0 : ℚ) < (total : ℚ) := by exact_mod_cast htot
    have hmono :
        (jsRound ((acc : ℚ) / (total : ℚ) * 100) : ℚ) ≤
          (jsRound (((acc + c : ℕ) : ℚ) / (total : ℚ) * 100) : ℚ) := by
      have hc : ((acc : ℕ) : ℚ) ≤ ((acc + c : ℕ) : ℚ) := by
        exact_mod_cast Nat.le_add_right acc c
      have hdiv : ((acc : ℕ) : ℚ) / (total : ℚ) ≤ ((acc + c : ℕ) : ℚ) / (total : ℚ) :=
        (div_le_div_right htotq).mpr hc
      have := jsRound_mono (mul_le_mul_of_nonneg_right hdiv (by norm_num : (0:ℚ) ≤ 100))
      exact_mod_cast this
    simp only [Downloader.ytdlDataStates, List.map_cons]
    rw [List.chain'_cons]
    constructor
    · simp only [Downloader.ytdlDataStep, htot, if_true]
      exact le_trans hj hmono
    · have h1 := ih (acc + c) (Downloader.ytdlDataStep total (acc + c) j)
        (by simp only [Downloader.ytdlDataStep, htot, if_true]; exact le_refl _)
      simpa only [List.map_cons] using h1

/-- Value of `getLast?` on a nonempty list, phrased through the default the traces use. -/
theorem getLast?_cons_getD {α : Type} : ∀ (l : List α) (a : α),
    (a :: l).getLast? = some (l.getLast?.getD a) := by
  intro l
  induction l with
  | nil => intro a; rfl
  | cons b bs ih =>
    intro a
    rw [List.getLast?_cons_cons, ih b]
    rfl

/-- The `last` job a trace's terminal update is applied to is the initial job
or one of the data states. -/
theorem getD_getLast?_mem {α : Type} (l : List α) (a : α) :
    l.getLast?.getD a = a ∨ l.getLast?.getD a ∈ l := by
  rcases h : l.getLast? with - | z
  · left; rfl
  · right
    exact List.mem_of_mem_getLast? h

/-- Appending the terminal state to a non-decreasing progress trace keeps it
non-decreasing when the terminal progress dominates the last state's. -/
theorem chain_append_last {α : Type} (f : α → ℚ) (init fin : α) (states : List α)
    (h1 : List.Chain' (· ≤ ·) ((init :: states).map f))
    (h2 : f (states.getLast?.getD init) ≤ f fin) :
    List.Chain' (· ≤ ·) (((init :: states) ++ [fin]).map f) := by
  rw [List.map_append, List.chain'_append]
  refine ⟨h1, List.chain'_singleton _, ?_⟩
  intro x hx y hy
  rw [List.getLast?_map, getLast?_cons_getD] at hx
  simp only [List.map_cons, List.map_nil, List.head?_cons, Option.mem_def,
    Option.map_some', Option.some_inj] at hx hy
  rw [← hx, ← hy]
  exact h2

/-- Combined observable-trace properties of a direct-mode ytdl-core download:
non-decreasing progress, progress within [0, 100], and progress 100 whenever
the status is "completed". -/
theorem ytdlTrace_props (total : ℕ) (chunks : List ℕ) (success : Bool)
    (err : String) (htot : 0 < total) (hsum : chunks.sum ≤ total) :
    List.Chain' (· ≤ ·)
      ((Downloader.ytdlTrace total chunks success err).map
        Downloader.Job.progress) ∧
    (∀ s ∈ Downloader.ytdlTrace total chunks success err,
        0 ≤ s.progress ∧ s.progress ≤ 100) ∧
    (∀ s ∈ Downloader.ytdlTrace total chunks success err,
        s.status = Downloader.DlStatus.completed → s.progress = 100) := by
  have hsum0 : 0 + chunks.sum ≤ total := by omega
  have hboundL :
      0 ≤ ((Downloader.ytdlDataStates total Downloader.initJob 0
            chunks).getLast?.getD Downloader.initJob).progress ∧
      ((Downloader.ytdlDataStates total Downloader.initJob 0
            chunks).getLast?.getD Downloader.initJob).progress ≤ 100 := by
    rcases getD_getLast?_mem
        (Downloader.ytdlDataStates total Downloader.initJob 0 chunks)
        Downloader.initJob with h | h
    · rw [h]
      norm_num [Downloader.initJob]
    · exact ytdlDataStates_bounds total htot chunks 0 Downloader.initJob hsum0 _ h
  have htr : Downloader.ytdlTrace total chunks success err =
      (Downloader.initJob ::
        Downloader.ytdlDataStates total Downloader.initJob 0 chunks) ++
        [Downloader.finishDownload success err
          ((Downloader.ytdlDataStates total Downloader.initJob 0
              chunks).getLast?.getD Downloader.initJob)] := rfl
  refine ⟨?_, ?_, ?_⟩
  · rw [htr]
    apply chain_append_last
    · apply ytdlDataStates_chain total htot chunks 0 Downloader.initJob
      have h0 : (jsRound (((0 : ℕ) : ℚ) / (total : ℚ) * 100) : ℚ) = 0 := by
        norm_num [jsRound_eq]
      rw [h0]
      norm_num [Downloader.initJob]
    · cases success with
      | false => simp [Downloader.finishDownload]
      | true => simpa [Downloader.finishDownload] using hboundL.2
  · intro s hs
    rw [htr] at hs
    rcases List.mem_append.mp hs with hs1 | hs2
    · rcases List.mem_cons.mp hs1 with rfl | hs1'
      · norm_num [Downloader.initJob]
      · exact ytdlDataStates_bounds total htot chunks 0 Downloader.initJob hsum0 s hs1'
    · rw [List.mem_singleton] at hs2
      subst hs2
      cases success with
      | false => simpa [Downloader.finishDownload] using hboundL
      | true => norm_num [Downloader.finishDownload]
  · intro s hs
    rw [htr] at hs
    rcases List.mem_append.mp hs with hs1 | hs2
    · rcases List.mem_cons.mp hs1 with rfl | hs1'
      · intro hcon
        exact absurd hcon (by simp [Downloader.initJob])
      · intro hcon
        have h1 := ytdlDataStates_status total chunks 0 Downloader.initJob s hs1'
        rw [hcon] at h1
        exact absurd h1.symm (by simp [Downloader.initJob])
    · rw [List.mem_singleton] at hs2
      subst hs2
      cases success with
      | false =>
        intro hcon
        simp [Downloader.finishDownload] at hcon
      | true =>
        intro _
        simp [Downloader.finishDownload]

/-- Each ffmpeg progress event preserves the render job's status. -/
theorem renderDataStates_status (d : ℚ) :
    ∀ (ss : List ℚ) (j : Processor.RJob),
      ∀ s ∈ Processor.renderDataStates d j ss, s.status = j.status := by
  intro ss
  induction ss with
  | nil =>
    intro j s hs
    simp [Processor.renderDataStates] at hs
  | cons x ss ih =>
    intro j s hs
    simp only [Processor.renderDataStates, List.mem_cons] at hs
    rcases hs with rfl | hs'
    · unfold Processor.renderProgressStep
      split <;> rfl
    · have h1 := ih (Processor.renderProgressStep d x j) s hs'
      rw [h1]
      unfold Processor.renderProgressStep
      split <;> rfl

/-- The ffmpeg progress events clamp to at most 99. -/
theorem renderDataStates_le99 (d : ℚ) :
    ∀ (ss : List ℚ) (j : Processor.RJob), j.progress ≤ 99 →
      ∀ s ∈ Processor.renderDataStates d j ss, s.progress ≤ 99 := by
  intro ss
  induction ss with
  | nil =>
    intro j _ s hs
    simp [Processor.renderDataStates] at hs
  | cons x ss ih =>
    intro j hj s hs
    have hstep : (Processor.renderProgressStep d x j).progress ≤ 99 := by
      unfold Processor.renderProgressStep
      split
      · exact min_le_left _ _
      · exact hj
    simp only [Processor.renderDataStates, List.mem_cons] at hs
    rcases hs with rfl | hs'
    · exact hstep
    · exact ih (Processor.renderProgressStep d x j) hstep s hs'

/-- With a positive duration and non-negative reported times, the clamped
render progress stays non-negative. -/
theorem renderDataStates_nonneg (d : ℚ) (hd : 0 < d) :
    ∀ (ss : List ℚ) (j : Processor.RJob), 0 ≤ j.progress →
      (∀ x ∈ ss, 0 ≤ x) →
      ∀ s ∈ Processor.renderDataStates d j ss, 0 ≤ s.progress := by
  intro ss
  induction ss with
  | nil =>
    intro j _ _ s hs
    simp [Processor.renderDataStates] at hs
  | cons x ss ih =>
    intro j hj hss s hs
    have hx0 : (0 : ℚ) ≤ x := hss x (List.mem_cons_self x ss)
    have hstep : 0 ≤ (Processor.renderProgressStep d x j).progress := by
      unfold Processor.renderProgressStep
      rw [if_pos hd]
      apply le_min (by norm_num)
      have h0 : (0 : ℚ) ≤ x / d * 100 :=
        mul_nonneg (div_nonneg hx0 hd.le) (by norm_num)
      exact_mod_cast jsRound_nonneg h0
    simp only [Processor.renderDataStates, List.mem_cons] at hs
    rcases hs with rfl | hs'
    · exact hstep
    · exact ih (Processor.renderProgressStep d x j) hstep
        (fun y hy => hss y (List.mem_cons_of_mem x hy)) s hs'

/-- Monotonicity of the clamped render progress under a non-decreasing stream
of reported times. -/
theorem renderDataStates_chain (d : ℚ) (hd : 0 < d) :
    ∀ (ss : List ℚ) (j : Processor.RJob) (b : ℚ),
      (∀ x ∈ ss, b ≤ x) → List.Chain' (· ≤ ·) ss →
      j.progress ≤ min 99 ((jsRound (b / d * 100) : ℤ) : ℚ) →
      List.Chain' (· ≤ ·)
        ((j :: Processor.renderDataStates d j ss).map Processor.RJob.progress) := by
  intro ss
  induction ss with
  | nil =>
    intro j b _ _ _
    simp [Processor.renderDataStates]
  | cons x ss ih =>
    intro j b hb hchain hj
    have hbx : b ≤ x := hb x (List.mem_cons_self x ss)
    have hmono :
        min (99 : ℚ) ((jsRound (b / d * 100) : ℤ) : ℚ) ≤
          min 99 ((jsRound (x / d * 100) : ℤ) : ℚ) := by
      apply min_le_min (le_refl _)
      have h1 : b / d * 100 ≤ x / d * 100 :=
        mul_le_mul_of_nonneg_right ((div_le_div_right hd).mpr hbx) (by norm_num)
      exact_mod_cast jsRound_mono h1
    simp only [Processor.renderDataStates, List.map_cons]
    rw [List.chain'_cons]
    constructor
    · simp only [Processor.renderProgressStep, hd, if_true]
      exact le_trans hj hmono
    · have hb' : ∀ y ∈ ss, x ≤ y :=
        (List.pairwise_cons.mp (List.chain'_iff_pairwise.mp hchain)).1
      have h2 := ih (Processor.renderProgressStep d x j) x hb' hchain.tail
        (by simp only [Processor.renderProgressStep, hd, if_true]; exact le_refl _)
      simpa only [List.map_cons] using h2

/-- Combined observable-trace properties of a direct-mode render:
non-decreasing progress, progress within [0, 99] while "processing", and
progress 100 exactly at "completed". -/
theorem renderTrace_props (d : ℚ) (ss : List ℚ) (success : Bool) (err : String)
    (hd : 0 < d) (hnn : ∀ x ∈ ss, 0 ≤ x)
    (hmono : List.Chain' (· ≤ ·) ss) :
    List.Chain' (· ≤ ·)
      ((Processor.renderTrace d ss success err).map Processor.RJob.progress) ∧
    (∀ s ∈ Processor.renderTrace d ss success err,
        s.status = Processor.RStatus.processing →
          0 ≤ s.progress ∧ s.progress ≤ 99) ∧
    (∀ s ∈ Processor.renderTrace d ss success err,
        s.status = Processor.RStatus.completed ↔ s.progress = 100) := by
  have hinit99 : Processor.initRJob.progress ≤ 99 := by
    norm_num [Processor.initRJob]
  have hL99 :
      ((Processor.renderDataStates d Processor.initRJob ss).getLast?.getD
          Processor.initRJob).progress ≤ 99 := by
    rcases getD_getLast?_mem (Processor.renderDataStates d Processor.initRJob ss)
        Processor.initRJob with h | h
    · rw [h]; exact hinit99
    · exact renderDataStates_le99 d ss Processor.initRJob hinit99 _ h
  have hL0 :
      0 ≤ ((Processor.renderDataStates d Processor.initRJob ss).getLast?.getD
          Processor.initRJob).progress := by
    rcases getD_getLast?_mem (Processor.renderDataStates d Processor.initRJob ss)
        Processor.initRJob with h | h
    · rw [h]; norm_num [Processor.initRJob]
    · exact renderDataStates_nonneg d hd ss Processor.initRJob
        (by norm_num [Processor.initRJob]) hnn _ h
  have htr : Processor.renderTrace d ss success err =
      (Processor.initRJob :: Processor.renderDataStates d Processor.initRJob ss) ++
        [Processor.finishRender success err
          ((Processor.renderDataStates d Processor.initRJob ss).getLast?.getD
            Processor.initRJob)] := rfl
  refine ⟨?_, ?_, ?_⟩
  · rw [htr]
    apply chain_append_last
    · apply renderDataStates_chain d hd ss Processor.initRJob 0 hnn hmono
      have h0 : (0 : ℚ) / d * 100 = 0 := by
        rw [zero_div, zero_mul]
      rw [h0]
      norm_num [Processor.initRJob, jsRound_eq]
    · cases success with
      | false => simp [Processor.finishRender]
      | true =>
        simp only [Processor.finishRender, if_true]
        exact le_trans hL99 (by norm_num)
  · intro s hs
    rw [htr] at hs
    rcases List.mem_append.mp hs with hs1 | hs2
    · rcases List.mem_cons.mp hs1 with rfl | hs1'
      · intro _
        norm_num [Processor.initRJob]
      · intro _
        exact ⟨renderDataStates_nonneg d hd ss Processor.initRJob
            (by norm_num [Processor.initRJob]) hnn s hs1',
          renderDataStates_le99 d ss Processor.initRJob hinit99 s hs1'⟩
    · rw [List.mem_singleton] at hs2
      subst hs2
      cases success with
      | false =>
        intro hcon
        simp [Processor.finishRender] at hcon
      | true =>
        intro hcon
        simp [Processor.finishRender] at hcon
  · intro s hs
    rw [htr] at hs
    rcases List.mem_append.mp hs with hs1 | hs2
    · rcases List.mem_cons.mp hs1 with rfl | hs1'
      · constructor
        · intro hcon
          exact absurd hcon (by simp [Processor.initRJob])
        · intro hcon
          exact absurd hcon (by norm_num [Processor.initRJob])
      · constructor
        · intro hcon
          have h1 := renderDataStates_status d ss Processor.initRJob s hs1'
          rw [hcon] at h1
          exact absurd h1.symm (by simp [Processor.initRJob])
        · intro hcon
          have h99 := renderDataStates_le99 d ss Processor.initRJob hinit99 s hs1'
          rw [hcon] at h99
          exact absurd h99 (by norm_num)
    · rw [List.mem_singleton] at hs2
      subst hs2
      cases success with
      | false =>
        constructor
        · intro hcon
          simp [Processor.finishRender] at hcon
        · intro hcon
          simp only [Processor.finishRender, if_neg Bool.false_ne_true] at hcon
          rw [hcon] at hL99
          exact absurd hL99 (by norm_num)
      | true =>
        simp [Processor.finishRender]

/-- C4 amended: for the byte-counting (ytdl-core) acquisition path the
observable progress sequence is non-decreasing and stays within [0, 100]
(not [0, 99]: the downloader has no clamp, so 100 can be observed while still
running), and a completed state always shows progress 100; for the render
path, under the encoder's non-decreasing reported time, progress is
non-decreasing, stays within [0, 99] while "processing", and equals 100
exactly when the status is "completed".  (The yt-dlp acquisition path stores
the tool's percentages verbatim, with no monotonicity enforced — see the
counterexample.) -/
theorem progress_amended (totalBytes : ℕ) (chunks : List ℕ) (dSucc : Bool)
    (dErr : String) (duration : ℚ) (seconds : List ℚ) (rSucc : Bool)
    (rErr : String) (htot : 0 < totalBytes) (hsum : chunks.sum ≤ totalBytes)
    (hdur : 0 < duration) (hsec : ∀ x ∈ seconds, 0 ≤ x)
    (hmono : List.Chain' (· ≤ ·) seconds) :
    List.Chain' (· ≤ ·)
      ((Downloader.ytdlTrace totalBytes chunks dSucc dErr).map
        Downloader.Job.progress) ∧
    (∀ s ∈ Downloader.ytdlTrace totalBytes chunks dSucc dErr,
        0 ≤ s.progress ∧ s.progress ≤ 100) ∧
    (∀ s ∈ Downloader.ytdlTrace totalBytes chunks dSucc dErr,
        s.status = Downloader.DlStatus.completed → s.progress = 100) ∧
    List.Chain' (· ≤ ·)
      ((Processor.renderTrace duration seconds rSucc rErr).map
        Processor.RJob.progress) ∧
    (∀ s ∈ Processor.renderTrace duration seconds rSucc rErr,
        s.status = Processor.RStatus.processing →
          0 ≤ s.progress ∧ s.progress ≤ 99) ∧
    (∀ s ∈ Processor.renderTrace duration seconds rSucc rErr,
        s.status = Processor.RStatus.completed ↔ s.progress = 100) := by
  obtain ⟨d1, d2, d3⟩ := ytdlTrace_props totalBytes chunks dSucc dErr htot hsum
  obtain ⟨r1, r2, r3⟩ := renderTrace_props duration seconds rSucc rErr hdur hsec hmono
  exact ⟨d1, d2, d3, r1, r2, r3⟩

/-- Witness for C4 (amended) at a concrete download and render. -/
theorem progress_amended_witness :
    List.Chain' (· ≤ ·)
      ((Downloader.ytdlTrace 10 [4, 6] true "").map Downloader.Job.progress) ∧
    List.Chain' (· ≤ ·)
      ((Processor.renderTrace 2 [1, 2] true "").map Processor.RJob.progress) :=
  ⟨(progress_amended 10 [4, 6] true "" 2 [1, 2] true "" (by norm_num)
      (by norm_num) (by norm_num)
      (by intro x hx; simp at hx; rcases hx with rfl | rfl <;> norm_num)
      (by norm_num [List.chain'_cons, List.chain'_singleton])).1,
   (progress_amended 10 [4, 6] true "" 2 [1, 2] true "" (by norm_num)
      (by norm_num) (by norm_num)
      (by intro x hx; simp at hx; rcases hx with rfl | rfl <;> norm_num)
      (by norm_num [List.chain'_cons, List.chain'_singleton])).2.2.2.1⟩
